import Mathlib

/-!
Verification development for the leet-tracker rating core.

This file gives a shallow embedding, in Lean 4, of the Glicko-2 rating
engine and its callers as implemented in the repository:

* `src/domain/eloRating.ts` — scale conversions, `g`/`E`, `applyTimeDecay`,
  `calculatePartialCredit`, `determineTimeLimit`, `updateRating` (with its
  Illinois volatility solver);
* `src/domain/calibration.ts` — `selectCalibrationProblems` and the
  Fisher-Yates shuffle;
* `src/domain/ratingSync.ts` — `updateRatingsFromSolve` (its pure core);
* `src/domain/historicalRatingEstimation.ts` — `initializeRatingsFromHistory`.

Modelling conventions.  JavaScript numbers are modelled as real numbers
where the code computes with transcendental functions (`Math.exp`,
`Math.sqrt`, `Math.log`, `Math.PI`), and as rationals in the purely
ordered-field fragments (problem metadata, partial credit, selection), so
that the latter stay decidable and evaluable by `decide`/`rfl`.  Optional
JavaScript values (`rating?`, `timeUsed?`) are `Option`s; the JS falsiness
guard `!x` on a number is modelled as `x = 0` (respectively `none`/nonpositive
where the code also compares).  `Date.now()` is an explicit `now` parameter
(the code's contract fixes a frozen clock).  `Math.random()` draws are
explicit parameters (the spec directs implementers to inject the random
source).  The two `while` loops inside `updateRating`'s volatility solver
are modelled with an explicit iteration budget `fuel`: the source loops have
no cap, so every theorem below quantifies over `fuel`, and a loop that runs
out of budget returns its current state, exactly the unconverged state the
source would still be iterating on.
-/

namespace LeetTracker

open scoped Classical

/-! ## Data model (src/types/types.ts as used by the core) -/

/-- `UserRating` record: mean rating, rating deviation, volatility,
last-update timestamp and solve count. -/
structure UserRating where
  rating : ℝ
  rd : ℝ
  volatility : ℝ
  lastUpdated : ℝ
  solveCount : ℕ

/-- `Problem` catalog record (the fields the rating core reads). -/
structure Problem where
  slug : String
  title : String
  difficulty : String
  rating : Option ℚ
  tags : List String
  isPaid : Bool
  popularity : ℚ
deriving DecidableEq

/-- `Solve` history record (the fields the rating core reads). -/
structure Solve where
  slug : String
  status : String
  timestamp : ℚ
  rating : Option ℚ
  tags : List String
  timeUsed : Option ℚ
deriving DecidableEq

/-- `UserRatings`: the global rating plus per-category ratings.  The JS
object's categories map is modelled as an association list in insertion
order (JS objects and `Map`s preserve insertion order). -/
structure UserRatings where
  global : UserRating
  categories : List (String × UserRating)

/-! ## Constants (eloRating.ts) -/

/-- Glicko-2 scale constant. -/
noncomputable def GLICKO_SCALE : ℝ := 173.7178

/-- System volatility constant. -/
noncomputable def TAU : ℝ := 0.5

/-- Convergence tolerance for iterative calculations. -/
noncomputable def EPSILON : ℝ := 0.000001

/-- Default starting rating. -/
noncomputable def DEFAULT_RATING : ℝ := 1500

/-- Default starting RD. -/
noncomputable def DEFAULT_RD : ℝ := 350

/-- Default starting volatility. -/
noncomputable def DEFAULT_VOLATILITY : ℝ := 0.06

/-- Base time in minutes for a 1500-rated problem. -/
def BASE_TIME_MINUTES : ℚ := 20

/-- Rating period for time decay, in days. -/
noncomputable def RATING_PERIOD_DAYS : ℝ := 365

/-- Glicko c-parameter for RD increase per rating period. -/
noncomputable def C_PARAMETER : ℝ := 50

/-! ## RatingMath (eloRating.ts helper functions) -/

/-- `toGlickoScale(rating)`. -/
noncomputable def toGlickoScale (rating : ℝ) : ℝ :=
  (rating - DEFAULT_RATING) / GLICKO_SCALE

/-- `fromGlickoScale(glickoRating)`. -/
noncomputable def fromGlickoScale (glickoRating : ℝ) : ℝ :=
  glickoRating * GLICKO_SCALE + DEFAULT_RATING

/-- `rdToGlickoScale(rd)`. -/
noncomputable def rdToGlickoScale (rd : ℝ) : ℝ := rd / GLICKO_SCALE

/-- `rdFromGlickoScale(glickoRd)`. -/
noncomputable def rdFromGlickoScale (glickoRd : ℝ) : ℝ := glickoRd * GLICKO_SCALE

/-- `g(phi)` from the Glicko-2 paper. -/
noncomputable def g (phi : ℝ) : ℝ :=
  1 / Real.sqrt (1 + 3 * phi * phi / (Real.pi * Real.pi))

/-- `E(mu, muJ, phiJ)`, the expected-score function from Glicko-2. -/
noncomputable def E (mu muJ phiJ : ℝ) : ℝ :=
  1 / (1 + Real.exp (-(g phiJ) * (mu - muJ)))

/-! ## RatingEngine -/

/-- `applyTimeDecay(userRating, currentTime)`: RD growth during inactivity.
The JS guard `!userRating.lastUpdated` (falsy) is modelled as
`lastUpdated = 0`. -/
noncomputable def applyTimeDecay (userRating : UserRating) (currentTime : ℝ) :
    UserRating :=
  if userRating.lastUpdated = 0 then userRating
  else
    let elapsedMs := currentTime - userRating.lastUpdated
    let msPerPeriod := RATING_PERIOD_DAYS * 24 * 60 * 60 * 1000
    let elapsedPeriods := elapsedMs / msPerPeriod
    let rdSquared := userRating.rd * userRating.rd
    let cSquared := C_PARAMETER * C_PARAMETER
    let newRd := Real.sqrt (rdSquared + cSquared * elapsedPeriods)
    let cappedRd := min newRd DEFAULT_RD
    { userRating with rd := ((round cappedRd : ℤ) : ℝ), lastUpdated := currentTime }

/-- `initializeRating()` with the ambient clock made explicit. -/
noncomputable def initializeRating (now : ℝ) : UserRating :=
  { rating := DEFAULT_RATING
    rd := DEFAULT_RD
    volatility := DEFAULT_VOLATILITY
    lastUpdated := now
    solveCount := 0 }

/-- `calculateExpectedScore(userRating, problemRating)`. -/
noncomputable def calculateExpectedScore (userRating problemRating : ℝ) : ℝ :=
  let mu := toGlickoScale userRating
  let muProblem := toGlickoScale problemRating
  let problemRd := 50 / GLICKO_SCALE
  E mu muProblem problemRd

/-- `calculatePartialCredit(timeUsed, timeLimit, completed)`. -/
def calculatePartialCredit (timeUsed timeLimit : ℚ) (completed : Bool) : ℚ :=
  if !completed then 0
  else
    let ratio := timeUsed / timeLimit
    if ratio ≤ 1 then 1
    else if ratio ≤ 2 then 1 - (ratio - 1) * 0.7
    else 0

/-- `determineTimeLimit(problemRating, baseMinutes = 20)`: fixed time limit in
seconds, the `problemRating` parameter is ignored by the body. -/
def determineTimeLimit (problemRating : ℚ) (baseMinutes : ℚ := BASE_TIME_MINUTES) :
    ℚ :=
  baseMinutes * 60

/-- The function `f(x)` whose root the volatility solver finds (step 5 of
`updateRating`). -/
noncomputable def volatilityF (deltaSquared phiSquared v a x : ℝ) : ℝ :=
  let eX := Real.exp x
  let phiSquaredPlusV := phiSquared + v + eX
  eX * (deltaSquared - phiSquared - v - eX) / (2 * phiSquaredPlusV * phiSquaredPlusV)
    - (x - a) / (TAU * TAU)

/-- The source's bracket search `let k = 1; while (f(a - k*TAU) < 0) k++`,
with an explicit iteration budget: if the budget runs out the current `k` is
returned (the source would still be looping). -/
noncomputable def findBracketK (f : ℝ → ℝ) (a : ℝ) : ℕ → ℕ → ℕ
  | 0, k => k
  | fuel + 1, k => if f (a - (k : ℝ) * TAU) < 0 then findBracketK f a fuel (k + 1) else k

/-- One run of the source's Illinois loop
`while (|B - A| > EPSILON) ...` on the state `(A, B, fA, fB)`, with an
explicit iteration budget: if the budget runs out the current (unconverged)
state is returned. -/
noncomputable def illinoisLoop (f : ℝ → ℝ) : ℕ → ℝ × ℝ × ℝ × ℝ → ℝ × ℝ × ℝ × ℝ
  | 0, s => s
  | fuel + 1, (A, B, fA, fB) =>
    if |B - A| ≤ EPSILON then (A, B, fA, fB)
    else
      let C := A + (A - B) * fA / (fB - fA)
      let fC := f C
      if fC * fB < 0 then illinoisLoop f fuel (B, C, fB, fC)
      else illinoisLoop f fuel (A, C, fA / 2, fC)

/-- Every intermediate value of `updateRating(userRating, problemRating,
actualOutcome)` (eloRating.ts lines 265-360), recorded field by field so the
theorems below can speak about the solver's state.  `now` is the frozen
clock, `fuel` the iteration budget of the two solver loops. -/
structure UpdateTrace where
  decayedRating : UserRating
  mu : ℝ
  phi : ℝ
  sigma : ℝ
  muJ : ℝ
  phiJ : ℝ
  gPhiJ : ℝ
  expectedScore : ℝ
  v : ℝ
  delta : ℝ
  a : ℝ
  deltaSquared : ℝ
  phiSquared : ℝ
  startB : ℝ
  loopState : ℝ × ℝ × ℝ × ℝ
  newSigma : ℝ
  phiStar : ℝ
  newPhi : ℝ
  newMu : ℝ
  newRating : ℝ
  newRd : ℝ
  result : UserRating

/-- The body of `updateRating`, line for line. -/
noncomputable def updateRatingTrace (userRating : UserRating) (problemRating : ℝ)
    (actualOutcome : ℝ) (now : ℝ) (fuel : ℕ) : UpdateTrace :=
  let decayedRating := applyTimeDecay userRating now
  let mu := toGlickoScale decayedRating.rating
  let phi := rdToGlickoScale decayedRating.rd
  let sigma := decayedRating.volatility
  let muJ := toGlickoScale problemRating
  let phiJ := rdToGlickoScale 50
  let gPhiJ := g phiJ
  let expectedScore := E mu muJ phiJ
  let v := 1 / (gPhiJ * gPhiJ * expectedScore * (1 - expectedScore))
  let delta := v * gPhiJ * (actualOutcome - expectedScore)
  let a := Real.log (sigma * sigma)
  let deltaSquared := delta * delta
  let phiSquared := phi * phi
  let f := volatilityF deltaSquared phiSquared v a
  let startB :=
    if deltaSquared > phiSquared + v then Real.log (deltaSquared - phiSquared - v)
    else a - (findBracketK f a fuel 1 : ℝ) * TAU
  let loopState := illinoisLoop f fuel (a, startB, f a, f startB)
  let newSigma := Real.exp (loopState.1 / 2)
  let phiStar := Real.sqrt (phiSquared + newSigma * newSigma)
  let newPhi := 1 / Real.sqrt (1 / (phiStar * phiStar) + 1 / v)
  let newMu := mu + newPhi * newPhi * gPhiJ * (actualOutcome - expectedScore)
  let newRating := max 800 (min 3500 (fromGlickoScale newMu))
  let newRd := max 30 (min 350 (rdFromGlickoScale newPhi))
  { decayedRating := decayedRating
    mu := mu
    phi := phi
    sigma := sigma
    muJ := muJ
    phiJ := phiJ
    gPhiJ := gPhiJ
    expectedScore := expectedScore
    v := v
    delta := delta
    a := a
    deltaSquared := deltaSquared
    phiSquared := phiSquared
    startB := startB
    loopState := loopState
    newSigma := newSigma
    phiStar := phiStar
    newPhi := newPhi
    newMu := newMu
    newRating := newRating
    newRd := newRd
    result :=
      { rating := ((round newRating : ℤ) : ℝ)
        rd := ((round newRd : ℤ) : ℝ)
        volatility := newSigma
        lastUpdated := now
        solveCount := decayedRating.solveCount + 1 } }

/-- `updateRating(userRating, problemRating, actualOutcome)`: the returned
record. -/
noncomputable def updateRating (userRating : UserRating) (problemRating : ℝ)
    (actualOutcome : ℝ) (now : ℝ) (fuel : ℕ) : UserRating :=
  (updateRatingTrace userRating problemRating actualOutcome now fuel).result

/-- The exit test of the source's Illinois loop, evaluated at the state the
(budgeted) loop returned: `False` means the source would still be
iterating. -/
noncomputable def updateRatingConverged (userRating : UserRating)
    (problemRating : ℝ) (actualOutcome : ℝ) (now : ℝ) (fuel : ℕ) : Prop :=
  let s := (updateRatingTrace userRating problemRating actualOutcome now fuel).loopState
  |s.2.1 - s.1| ≤ EPSILON

/-- `createPlaceholderRating(estimatedRating, solveCount)`. -/
noncomputable def createPlaceholderRating (estimatedRating : ℝ) (solveCount : ℕ)
    (now : ℝ) : UserRating :=
  let rd : ℝ := if solveCount < 10 then 250 else 200
  { rating := ((round estimatedRating : ℤ) : ℝ)
    rd := rd
    volatility := DEFAULT_VOLATILITY
    lastUpdated := now
    solveCount := solveCount }

/-! ## CalibrationFlow: `selectCalibrationProblems` (calibration.ts)

This fragment only compares and sorts rationals, so it is kept computable.
`Math.random()` inside the Fisher-Yates shuffle is injected as
`rand : ℕ → ℕ`: the JS draw `Math.floor(Math.random() * (i + 1))` at index
`i` is an arbitrary value in `[0, i]`, modelled as `rand i % (i + 1)`. -/

/-- Target ratings for calibration problem selection. -/
def CALIBRATION_TARGET_RATINGS : List ℚ := [1200, 1400, 1600, 1800, 2000, 2200]

/-- JS `pool.sort((a, b) => b.popularity - a.popularity)`: sort by popularity,
descending. -/
def sortByPopularityDesc (pool : List Problem) : List Problem :=
  pool.insertionSort fun a b => b.popularity ≤ a.popularity

/-- Swap the entries at positions `i` and `j` of a list (out-of-range indices
leave the list unchanged; the shuffle only uses in-range indices). -/
def swapAt (l : List Problem) (i j : ℕ) : List Problem :=
  match l.get? i, l.get? j with
  | some x, some y => (l.set i y).set j x
  | _, _ => l

/-- The body of the Fisher-Yates loop `for (i = n-1; i > 0; i--)`: the
argument `i + 1` is the current index, and the draw at that index is
`rand (i+1) % (i+2) ∈ [0, i+1]`. -/
def fisherYatesAux (rand : ℕ → ℕ) : ℕ → List Problem → List Problem
  | 0, l => l
  | i + 1, l => fisherYatesAux rand i (swapAt l (i + 1) (rand (i + 1) % (i + 2)))

/-- `shuffleArray(array)`: Fisher-Yates shuffle with the random source
injected. -/
def shuffleArray (rand : ℕ → ℕ) (l : List Problem) : List Problem :=
  fisherYatesAux rand (l.length - 1) l

/-- The candidate filter of `selectCalibrationProblems`: unsolved, non-paid,
with a (truthy) rating in `[1100, 2300]`. -/
def isCalibrationCandidate (solvedSlugs : List String) (p : Problem) : Bool :=
  !(solvedSlugs.contains p.slug) && !p.isPaid &&
    (match p.rating with
     | some r => decide (r ≠ 0) && decide (1100 ≤ r) && decide (r ≤ 2300)
     | none => false)

/-- `Math.abs` on the rational model (kept as an explicit `if` so that it
evaluates by kernel reduction). -/
def ratAbs (x : ℚ) : ℚ := if x < 0 then -x else x

/-- `ratAbs` is the absolute value. -/
lemma ratAbs_eq_abs (x : ℚ) : ratAbs x = |x| := by
  unfold ratAbs
  split_ifs with h
  · exact (abs_of_neg h).symm
  · exact (abs_of_nonneg (le_of_not_lt h)).symm

/-- `nearbyProblems` of one per-target iteration: candidates within ±100 of
the target rating. -/
def nearbyProblems (candidates : List Problem) (targetRating : ℚ) :
    List Problem :=
  candidates.filter fun p =>
    match p.rating with
    | some r => decide (ratAbs (r - targetRating) ≤ 100)
    | none => false

/-- `preferredProblems` of one per-target iteration: nearby problems whose
primary tag is not yet a used category. -/
def preferredProblems (candidates : List Problem) (usedCategories : List String)
    (targetRating : ℚ) : List Problem :=
  (nearbyProblems candidates targetRating).filter fun p =>
    match p.tags.head? with
    | some primaryTag => !(usedCategories.contains primaryTag)
    | none => false

/-- The `pool` of one per-target iteration: the preferred problems if any,
otherwise all nearby ones. -/
def targetPool (candidates : List Problem) (usedCategories : List String)
    (targetRating : ℚ) : List Problem :=
  if (preferredProblems candidates usedCategories targetRating).isEmpty then
    nearbyProblems candidates targetRating
  else preferredProblems candidates usedCategories targetRating

/-- One iteration of the per-target selection loop: state is
`(selected, usedCategories)`. -/
def pickForTarget (candidates : List Problem) (count : ℕ)
    (st : List Problem × List String) (targetRating : ℚ) :
    List Problem × List String :=
  if count ≤ st.1.length then st
  else if (nearbyProblems candidates targetRating).isEmpty then st
  else
    match (sortByPopularityDesc (targetPool candidates st.2 targetRating)).head? with
    | none => st
    | some chosen =>
      (st.1 ++ [chosen],
       match chosen.tags.head? with
       | some t => st.2 ++ [t]
       | none => st.2)

/-- The fill loop: add remaining candidates (already sorted by popularity)
until `count` problems are selected. -/
def fillSelected (count : ℕ) : List Problem → List Problem → List Problem
  | selected, [] => selected
  | selected, p :: rest =>
    if count ≤ selected.length then selected
    else fillSelected count (selected ++ [p]) rest

/-- `selectCalibrationProblems(allProblems, count = 8, solvedSlugs)`. -/
def selectCalibrationProblems (allProblems : List Problem) (count : ℕ)
    (solvedSlugs : List String) (rand : ℕ → ℕ) : List Problem :=
  let candidates := allProblems.filter (isCalibrationCandidate solvedSlugs)
  if candidates.isEmpty then []
  else
    let st := CALIBRATION_TARGET_RATINGS.foldl (pickForTarget candidates count)
      ([], [])
    let selected := st.1
    let selected :=
      if selected.length < count then
        let selectedSlugs := selected.map (·.slug)
        let remaining := sortByPopularityDesc
          (candidates.filter fun p => !(selectedSlugs.contains p.slug))
        fillSelected count selected remaining
      else selected
    shuffleArray rand selected

/-! ## RatingSync: the pure core of `updateRatingsFromSolve` (ratingSync.ts)

Loading/saving through the storage collaborator and the fire-and-forget
notification are boundary effects outside the rating computation; the
embedding keeps the function's whole treatment of the loaded `UserRatings`
value, which is what `saveRatings` then persists. -/

/-- The outcome-score block of `updateRatingsFromSolve` (partial credit when
a positive `timeUsed` is present, binary fallback otherwise).  `r` is the
solve's (positive) rating. -/
noncomputable def outcomeScoreFor (solve : Solve) (r : ℚ) : ℝ :=
  match solve.timeUsed with
  | some t =>
    if 0 < t then
      let timeLimit := determineTimeLimit r
      let completed := solve.status = "Accepted"
      ((calculatePartialCredit t timeLimit completed : ℚ) : ℝ)
    else if solve.status = "Accepted" then 1.0 else 0.1
  | none => if solve.status = "Accepted" then 1.0 else 0.1

/-- JS `ratings.categories[tag] = u`: replace the entry if the key exists,
append it otherwise. -/
def setCategory (cats : List (String × UserRating)) (tag : String)
    (u : UserRating) : List (String × UserRating) :=
  match cats with
  | [] => [(tag, u)]
  | (t, v) :: rest =>
    if t = tag then (t, u) :: rest else (t, v) :: setCategory rest tag u

/-- The per-tag category-update loop of `updateRatingsFromSolve`: lazily seed
a missing category from the (already updated) global rating, then update it
with the same problem rating and outcome score. -/
noncomputable def updateCategoriesFromSolve (globalRating : UserRating)
    (r : ℚ) (outcomeScore : ℝ) (now : ℝ) (fuel : ℕ) (tags : List String)
    (cats : List (String × UserRating)) : List (String × UserRating) :=
  tags.foldl
    (fun cats tag =>
      if tag = "Random" then cats
      else
        let categoryRating :=
          match cats.lookup tag with
          | some existing => existing
          | none =>
            { initializeRating now with
                rating := globalRating.rating
                rd := max 200 globalRating.rd }
        setCategory cats tag (updateRating categoryRating (r : ℝ) outcomeScore now fuel))
    cats

/-- The pure core of `updateRatingsFromSolve(username, solve)`: what the
loaded (or freshly initialized) `ratings` value becomes before it is saved.
A solve without a positive rating is skipped and the value is unchanged. -/
noncomputable def updateRatingsFromSolve (ratings : UserRatings) (solve : Solve)
    (now : ℝ) (fuel : ℕ) : UserRatings :=
  match solve.rating with
  | none => ratings
  | some r =>
    if r ≤ 0 then ratings
    else
      let outcomeScore := outcomeScoreFor solve r
      let newGlobal := updateRating ratings.global (r : ℝ) outcomeScore now fuel
      { global := newGlobal
        categories :=
          updateCategoriesFromSolve newGlobal r outcomeScore now fuel solve.tags
            ratings.categories }

/-! ## HistoricalEstimator (historicalRatingEstimation.ts)

The problem catalog lookup `problems: Map<string, Problem>` is a function
`String → Option Problem`; the per-category `Math.random()` draw is injected
as `random : String → ℝ`; saving through the storage collaborator is the
boundary, so the embedding returns the `UserRatings` value that is saved. -/

/-- `mean(values)`. -/
noncomputable def mean (values : List ℝ) : ℝ :=
  if values.length = 0 then 0 else values.sum / values.length

/-- `standardDeviation(values)` (population standard deviation; `0` for at
most one sample). -/
noncomputable def standardDeviation (values : List ℝ) : ℝ :=
  if values.length ≤ 1 then 0
  else
    let avg := mean values
    let squaredDiffs := values.map fun val => (val - avg) ^ 2
    Real.sqrt (mean squaredDiffs)

/-- `getAcceptedSolveRatings(solves, problems)`: the (positive) problem
ratings of the accepted solves. -/
def getAcceptedSolveRatings (solves : List Solve)
    (problems : String → Option Problem) : List ℚ :=
  (solves.filter fun solve =>
    decide (solve.status = "Accepted") &&
      (match problems solve.slug with
       | some problem =>
         match problem.rating with
         | some r => decide (0 < r)
         | none => false
       | none => false)).filterMap
    fun solve => (problems solve.slug).bind Problem.rating

/-- Append a solve to a category's group, creating the group at the end of
the association list if the key is new (JS `Map` insertion order). -/
def upsertGroup (m : List (String × List Solve)) (tag : String) (s : Solve) :
    List (String × List Solve) :=
  match m with
  | [] => [(tag, [s])]
  | (t, ss) :: rest =>
    if t = tag then (t, ss ++ [s]) :: rest else (t, ss) :: upsertGroup rest tag s

/-- `groupSolvesByCategory(solves, problems)`: accepted solves with a rated
problem, grouped under every tag of the problem except `"Random"`. -/
def groupSolvesByCategory (solves : List Solve)
    (problems : String → Option Problem) : List (String × List Solve) :=
  solves.foldl
    (fun m solve =>
      if solve.status ≠ "Accepted" then m
      else
        match problems solve.slug with
        | none => m
        | some problem =>
          match problem.rating with
          | none => m
          | some r =>
            if r ≤ 0 then m
            else if problem.tags.isEmpty then m
            else
              problem.tags.foldl
                (fun m tag => if tag = "Random" then m else upsertGroup m tag solve)
                m)
    []

/-- `processHistoricalSolves(initialRating, solves, problems)`: replay every
accepted, rated solve in timestamp order as a tie (outcome `0.5`). -/
noncomputable def processHistoricalSolves (initialRating : ℝ)
    (solves : List Solve) (problems : String → Option Problem) (now : ℝ)
    (fuel : ℕ) : UserRating :=
  let rating0 := { initializeRating now with rating := initialRating }
  let sortedSolves := solves.mergeSort fun a b => decide (a.timestamp ≤ b.timestamp)
  sortedSolves.foldl
    (fun rating solve =>
      if solve.status ≠ "Accepted" then rating
      else
        match problems solve.slug with
        | none => rating
        | some problem =>
          match problem.rating with
          | none => rating
          | some r =>
            if r ≤ 0 then rating
            else updateRating rating (r : ℝ) 0.5 now fuel)
    rating0

/-- The conservative global initial estimate of `initializeRatingsFromHistory`:
`mean - 0.5 * stddev` over the accepted solves' ratings, `1500` if there are
none. -/
noncomputable def initialEstimateOf (solves : List Solve)
    (problems : String → Option Problem) : ℝ :=
  let allRatings := (getAcceptedSolveRatings solves problems).map fun q => (q : ℝ)
  if 0 < allRatings.length then
    mean allRatings - 0.5 * standardDeviation allRatings
  else 1500

/-- The `categoryRatingValues` of one category group: the group's problem
ratings (`?? 0` for a missing problem), filtered to positive values. -/
def categoryRatingValuesOf (problems : String → Option Problem)
    (categorySolves : List Solve) : List ℚ :=
  (categorySolves.map fun solve =>
    match problems solve.slug with
    | some p => p.rating.getD 0
    | none => 0).filter
    fun r => decide (0 < r)

/-- The per-category branch of `initializeRatingsFromHistory`: a full
conservative-estimate replay for `≥ 3` rated solves, a jittered
global-estimate replay for `1-2` (jitter `(random - 0.5) * 100 ∈ [-50, 50]`),
no entry for `0`. -/
noncomputable def categoryRatingFromHistory (problems : String → Option Problem)
    (initialEstimate : ℝ) (random : String → ℝ) (now : ℝ) (fuel : ℕ)
    (category : String) (categorySolves : List Solve) : Option UserRating :=
  if 3 ≤ (categoryRatingValuesOf problems categorySolves).length then
    some (processHistoricalSolves
      (mean ((categoryRatingValuesOf problems categorySolves).map fun q => (q : ℝ)) -
        0.5 * standardDeviation
          ((categoryRatingValuesOf problems categorySolves).map fun q => (q : ℝ)))
      categorySolves problems now fuel)
  else if 0 < (categoryRatingValuesOf problems categorySolves).length then
    some (processHistoricalSolves
      (max 800 (min 3000 (initialEstimate + (random category - 0.5) * 100)))
      categorySolves problems now fuel)
  else none

/-- `initializeRatingsFromHistory(username, solves, problems)`: the
`UserRatings` value handed to `saveRatings`. -/
noncomputable def initializeRatingsFromHistory (solves : List Solve)
    (problems : String → Option Problem) (random : String → ℝ) (now : ℝ)
    (fuel : ℕ) : UserRatings :=
  let acceptedSolves := solves.filter fun s => decide (s.status = "Accepted")
  let initialEstimate := initialEstimateOf solves problems
  let globalRating := processHistoricalSolves initialEstimate acceptedSolves
    problems now fuel
  let categoryGroups := groupSolvesByCategory solves problems
  let categoryRatings := categoryGroups.foldl
    (fun acc cg =>
      match categoryRatingFromHistory problems initialEstimate random now fuel
        cg.1 cg.2 with
      | some u => acc ++ [(cg.1, u)]
      | none => acc)
    []
  { global := globalRating, categories := categoryRatings }

/-! ## Helper lemmas -/

/-- `round` is monotone. -/
lemma round_monotone {x y : ℝ} (h : x ≤ y) : round x ≤ round y := by
  rw [round_eq, round_eq]
  exact Int.floor_mono (by linarith)

/-- Rounding a value clamped to integer bounds stays within the bounds. -/
lemma round_clamp_bounds (x : ℝ) (a b : ℤ) (hab : (a : ℝ) ≤ (b : ℝ)) :
    (a : ℝ) ≤ ((round (max (a : ℝ) (min (b : ℝ) x)) : ℤ) : ℝ) ∧
    ((round (max (a : ℝ) (min (b : ℝ) x)) : ℤ) : ℝ) ≤ (b : ℝ) := by
  have h1 : (a : ℝ) ≤ max (a : ℝ) (min (b : ℝ) x) := le_max_left _ _
  have h2 : max (a : ℝ) (min (b : ℝ) x) ≤ (b : ℝ) := max_le hab (min_le_left _ _)
  have r1 : a ≤ round (max (a : ℝ) (min (b : ℝ) x)) := by
    have := round_monotone h1
    rwa [round_intCast] at this
  have r2 : round (max (a : ℝ) (min (b : ℝ) x)) ≤ b := by
    have := round_monotone h2
    rwa [round_intCast] at this
  exact ⟨by exact_mod_cast r1, by exact_mod_cast r2⟩

/-- Projection lemma: the returned rating is the rounded clamped `newRating`. -/
lemma updateRating_rating_eq (r : UserRating) (p o now : ℝ) (fuel : ℕ) :
    (updateRating r p o now fuel).rating =
      ((round (updateRatingTrace r p o now fuel).newRating : ℤ) : ℝ) := rfl

/-- Projection lemma: the returned rd is the rounded clamped `newRd`. -/
lemma updateRating_rd_eq (r : UserRating) (p o now : ℝ) (fuel : ℕ) :
    (updateRating r p o now fuel).rd =
      ((round (updateRatingTrace r p o now fuel).newRd : ℤ) : ℝ) := rfl

/-- Projection lemma: `newRating` is the clamp of the rescaled `newMu`. -/
lemma updateRatingTrace_newRating_eq (r : UserRating) (p o now : ℝ) (fuel : ℕ) :
    (updateRatingTrace r p o now fuel).newRating =
      max 800 (min 3500 (fromGlickoScale (updateRatingTrace r p o now fuel).newMu)) :=
  rfl

/-- Projection lemma: `newRd` is the clamp of the rescaled `newPhi`. -/
lemma updateRatingTrace_newRd_eq (r : UserRating) (p o now : ℝ) (fuel : ℕ) :
    (updateRatingTrace r p o now fuel).newRd =
      max 30 (min 350 (rdFromGlickoScale (updateRatingTrace r p o now fuel).newPhi)) :=
  rfl

/-! ## Claims -/

/-- C7: `determineTimeLimit` returns exactly `1200` seconds for every problem
rating (with the default `baseMinutes`), so in particular for `r = 2000` and
for the `1500` an absent rating defaults to; the result does not depend on
the problem rating. -/
theorem determineTimeLimit_fixed (r : ℚ) :
    determineTimeLimit r = 1200 ∧ determineTimeLimit r = determineTimeLimit 2000 ∧
    determineTimeLimit r = determineTimeLimit 1500 :=
  ⟨by norm_num [determineTimeLimit, BASE_TIME_MINUTES], rfl, rfl⟩

/-- C2: `calculatePartialCredit` returns `0` when not completed; when
completed it returns full credit for `ratio ≤ 1`, the linear interpolation
`1 - (ratio - 1) * 0.7` for `1 < ratio ≤ 2` (so `0.65` at ratio `1.5` and
`0.3` at ratio `2`), and `0` past ratio `2`. -/
theorem calculatePartialCredit_spec (t L : ℚ) (ht : 0 < t) (hL : 0 < L) :
    calculatePartialCredit t L false = 0 ∧
    (t / L ≤ 1 → calculatePartialCredit t L true = 1) ∧
    (1 < t / L → t / L ≤ 2 →
      calculatePartialCredit t L true = 1 - (t / L - 1) * 0.7) ∧
    (2 < t / L → calculatePartialCredit t L true = 0) ∧
    calculatePartialCredit (1.5 * L) L true = 0.65 ∧
    calculatePartialCredit (2 * L) L true = 0.3 := by
  have hL0 : L ≠ 0 := ne_of_gt hL
  have h15 : (1.5 : ℚ) * L / L = 1.5 := by field_simp
  have h2 : (2 : ℚ) * L / L = 2 := by field_simp
  refine ⟨rfl, ?_, ?_, ?_, ?_, ?_⟩
  · intro h
    simp [calculatePartialCredit, h]
  · intro h1 h2'
    rw [calculatePartialCredit]
    rw [if_neg (by simp), if_neg (by simpa using not_le.mpr h1), if_pos h2']
  · intro h2'
    rw [calculatePartialCredit]
    rw [if_neg (by simp), if_neg (by simpa using not_le.mpr (lt_trans one_lt_two h2')),
      if_neg (by simpa using not_le.mpr h2')]
  · rw [calculatePartialCredit]
    rw [if_neg (by simp), h15]
    norm_num
  · rw [calculatePartialCredit]
    rw [if_neg (by simp), h2]
    norm_num

/-- Witness for C2 at `t = 3`, `L = 2` (ratio `1.5`). -/
theorem calculatePartialCredit_spec_witness :
    calculatePartialCredit 3 2 false = 0 ∧
    ((3 : ℚ) / 2 ≤ 1 → calculatePartialCredit 3 2 true = 1) ∧
    (1 < (3 : ℚ) / 2 → (3 : ℚ) / 2 ≤ 2 →
      calculatePartialCredit 3 2 true = 1 - ((3 : ℚ) / 2 - 1) * 0.7) ∧
    (2 < (3 : ℚ) / 2 → calculatePartialCredit 3 2 true = 0) ∧
    calculatePartialCredit (1.5 * 2) 2 true = 0.65 ∧
    calculatePartialCredit (2 * 2) 2 true = 0.3 :=
  calculatePartialCredit_spec 3 2 (by norm_num) (by norm_num)

/-- C9: `updateRating` is deterministic: two runs on identical inputs under
the same frozen clock (and the same loop budget) return identical records;
being a total Lean function of its arguments, the embedded `updateRating`
also returns a record on every input (it cannot throw). -/
theorem updateRating_deterministic (r₁ r₂ : UserRating) (p₁ p₂ o₁ o₂ n₁ n₂ : ℝ)
    (fuel₁ fuel₂ : ℕ) (hr : r₁ = r₂) (hp : p₁ = p₂) (ho : o₁ = o₂)
    (hn : n₁ = n₂) (hf : fuel₁ = fuel₂) :
    updateRating r₁ p₁ o₁ n₁ fuel₁ = updateRating r₂ p₂ o₂ n₂ fuel₂ := by
  rw [hr, hp, ho, hn, hf]

/-- Witness for C9 at a concrete input. -/
theorem updateRating_deterministic_witness :
    updateRating ⟨1500, 350, 0.06, 0, 0⟩ 1500 0.5 0 100 =
      updateRating ⟨1500, 350, 0.06, 0, 0⟩ 1500 0.5 0 100 :=
  updateRating_deterministic _ _ _ _ _ _ _ _ _ _ rfl rfl rfl rfl rfl

/-- C1: for every valid input rating record, problem rating and outcome in
`[0, 1]`, the record returned by `updateRating` has `rating ∈ [800, 3500]`
and `rd ∈ [30, 350]` (the code clamps and rounds both). -/
theorem updateRating_bounds (r : UserRating) (p o now : ℝ) (fuel : ℕ)
    (hr₁ : 800 ≤ r.rating) (hr₂ : r.rating ≤ 3500) (hd₁ : 30 ≤ r.rd)
    (hd₂ : r.rd ≤ 350) (hv : 0 < r.volatility) (ho₁ : 0 ≤ o) (ho₂ : o ≤ 1) :
    (800 ≤ (updateRating r p o now fuel).rating ∧
      (updateRating r p o now fuel).rating ≤ 3500) ∧
    (30 ≤ (updateRating r p o now fuel).rd ∧
      (updateRating r p o now fuel).rd ≤ 350) := by
  constructor
  · have h := round_clamp_bounds
      (fromGlickoScale (updateRatingTrace r p o now fuel).newMu) 800 3500
      (by norm_num)
    rw [updateRating_rating_eq, updateRatingTrace_newRating_eq]
    constructor
    · simpa using h.1
    · simpa using h.2
  · have h := round_clamp_bounds
      (rdFromGlickoScale (updateRatingTrace r p o now fuel).newPhi) 30 350
      (by norm_num)
    rw [updateRating_rd_eq, updateRatingTrace_newRd_eq]
    constructor
    · simpa using h.1
    · simpa using h.2

/-- Witness for C1 at a concrete valid input. -/
theorem updateRating_bounds_witness :
    (800 ≤ (updateRating ⟨1500, 350, 0.06, 0, 0⟩ 1500 0.5 0 100).rating ∧
      (updateRating ⟨1500, 350, 0.06, 0, 0⟩ 1500 0.5 0 100).rating ≤ 3500) ∧
    (30 ≤ (updateRating ⟨1500, 350, 0.06, 0, 0⟩ 1500 0.5 0 100).rd ∧
      (updateRating ⟨1500, 350, 0.06, 0, 0⟩ 1500 0.5 0 100).rd ≤ 350) :=
  updateRating_bounds ⟨1500, 350, 0.06, 0, 0⟩ 1500 0.5 0 100 (by norm_num)
    (by norm_num) (by norm_num) (by norm_num) (by norm_num) (by norm_num)
    (by norm_num)

/-- Projection lemma: the decayed rd, when `lastUpdated` is set. -/
lemma applyTimeDecay_rd (u : UserRating) (t : ℝ) (h0 : u.lastUpdated ≠ 0) :
    (applyTimeDecay u t).rd =
      ((round (min (Real.sqrt (u.rd * u.rd + C_PARAMETER * C_PARAMETER *
        ((t - u.lastUpdated) / (RATING_PERIOD_DAYS * 24 * 60 * 60 * 1000))))
        DEFAULT_RD) : ℤ) : ℝ) := by
  rw [applyTimeDecay, if_neg h0]

/-- Projection lemma: the decayed `lastUpdated`, when it was set. -/
lemma applyTimeDecay_lastUpdated (u : UserRating) (t : ℝ)
    (h0 : u.lastUpdated ≠ 0) : (applyTimeDecay u t).lastUpdated = t := by
  rw [applyTimeDecay, if_neg h0]

/-- C6 (amended): `applyTimeDecay` returns its input unchanged when
`lastUpdated` is unset/zero; otherwise the stored rd is
`round(min(sqrt(rd² + 50²·elapsedPeriods), 350))` — the code additionally
rounds the capped value to the nearest integer — it is monotonically
non-decreasing in the elapsed time, stays at most `350`, and `lastUpdated`
is set to `now`. -/
theorem applyTimeDecay_spec (u v : UserRating) (t t' s : ℝ)
    (hv : v.lastUpdated = 0) (h0 : u.lastUpdated ≠ 0) (htt : t ≤ t') :
    applyTimeDecay v s = v ∧
    (applyTimeDecay u t).rd ≤ (applyTimeDecay u t').rd ∧
    (applyTimeDecay u t).rd =
      ((round (min (Real.sqrt (u.rd * u.rd + C_PARAMETER * C_PARAMETER *
        ((t - u.lastUpdated) / (RATING_PERIOD_DAYS * 24 * 60 * 60 * 1000))))
        DEFAULT_RD) : ℤ) : ℝ) ∧
    (applyTimeDecay u t).lastUpdated = t ∧
    (applyTimeDecay u t).rd ≤ 350 := by
  have hP : (0 : ℝ) < RATING_PERIOD_DAYS * 24 * 60 * 60 * 1000 := by
    norm_num [RATING_PERIOD_DAYS]
  have hrd350 : (applyTimeDecay u t).rd ≤ 350 := by
    rw [applyTimeDecay_rd u t h0]
    have h1 : min (Real.sqrt (u.rd * u.rd + C_PARAMETER * C_PARAMETER *
        ((t - u.lastUpdated) / (RATING_PERIOD_DAYS * 24 * 60 * 60 * 1000))))
        DEFAULT_RD ≤ ((350 : ℤ) : ℝ) := by
      have : DEFAULT_RD = ((350 : ℤ) : ℝ) := by norm_num [DEFAULT_RD]
      rw [← this]
      exact min_le_right _ _
    have := round_monotone h1
    rw [round_intCast] at this
    exact_mod_cast this
  refine ⟨?_, ?_, applyTimeDecay_rd u t h0, applyTimeDecay_lastUpdated u t h0,
    hrd350⟩
  · rw [applyTimeDecay, if_pos hv]
  · rw [applyTimeDecay_rd u t h0, applyTimeDecay_rd u t' h0]
    have hc : (0 : ℝ) ≤ C_PARAMETER * C_PARAMETER := by norm_num [C_PARAMETER]
    have harg : u.rd * u.rd + C_PARAMETER * C_PARAMETER *
        ((t - u.lastUpdated) / (RATING_PERIOD_DAYS * 24 * 60 * 60 * 1000)) ≤
        u.rd * u.rd + C_PARAMETER * C_PARAMETER *
        ((t' - u.lastUpdated) / (RATING_PERIOD_DAYS * 24 * 60 * 60 * 1000)) := by
      have : (t - u.lastUpdated) / (RATING_PERIOD_DAYS * 24 * 60 * 60 * 1000) ≤
          (t' - u.lastUpdated) / (RATING_PERIOD_DAYS * 24 * 60 * 60 * 1000) := by
        gcongr
      nlinarith [this, hc]
    have := round_monotone (min_le_min (Real.sqrt_le_sqrt harg)
      (le_refl DEFAULT_RD))
    exact_mod_cast this

/-- Witness for C6 at concrete inputs. -/
theorem applyTimeDecay_spec_witness :
    applyTimeDecay ⟨1500, 350, 0.06, 0, 0⟩ 5 = ⟨1500, 350, 0.06, 0, 0⟩ ∧
    (applyTimeDecay ⟨1500, 100, 0.06, 1, 0⟩ 1).rd ≤
      (applyTimeDecay ⟨1500, 100, 0.06, 1, 0⟩ 2).rd ∧
    (applyTimeDecay ⟨1500, 100, 0.06, 1, 0⟩ 1).rd =
      ((round (min (Real.sqrt ((⟨1500, 100, 0.06, 1, 0⟩ : UserRating).rd *
        (⟨1500, 100, 0.06, 1, 0⟩ : UserRating).rd +
        C_PARAMETER * C_PARAMETER *
        ((1 - (⟨1500, 100, 0.06, 1, 0⟩ : UserRating).lastUpdated) /
          (RATING_PERIOD_DAYS * 24 * 60 * 60 * 1000)))) DEFAULT_RD) : ℤ) : ℝ) ∧
    (applyTimeDecay ⟨1500, 100, 0.06, 1, 0⟩ 1).lastUpdated = 1 ∧
    (applyTimeDecay ⟨1500, 100, 0.06, 1, 0⟩ 1).rd ≤ 350 :=
  applyTimeDecay_spec ⟨1500, 100, 0.06, 1, 0⟩ ⟨1500, 350, 0.06, 0, 0⟩ 1 2 5 rfl
    (by norm_num) (by norm_num)

/-- C6 counterexample: with `rd = 100`, `lastUpdated = 1` and exactly one
elapsed rating period, the stored rd is `round(sqrt 12500) = 112`, not the
claim's un-rounded `min(sqrt(rd² + 50²·elapsedPeriods), 350) = sqrt 12500`. -/
theorem applyTimeDecay_round_cex :
    (applyTimeDecay ⟨1500, 100, 0.06, 1, 0⟩ (1 + 365 * 24 * 60 * 60 * 1000)).rd ≠
      min (Real.sqrt (((⟨1500, 100, 0.06, 1, 0⟩ : UserRating)).rd *
        ((⟨1500, 100, 0.06, 1, 0⟩ : UserRating)).rd +
        C_PARAMETER * C_PARAMETER *
        (((1 + 365 * 24 * 60 * 60 * 1000) -
            ((⟨1500, 100, 0.06, 1, 0⟩ : UserRating)).lastUpdated) /
          (RATING_PERIOD_DAYS * 24 * 60 * 60 * 1000)))) DEFAULT_RD := by
  have harg : ((⟨1500, 100, 0.06, 1, 0⟩ : UserRating)).rd *
      ((⟨1500, 100, 0.06, 1, 0⟩ : UserRating)).rd +
      C_PARAMETER * C_PARAMETER *
      (((1 + 365 * 24 * 60 * 60 * 1000) -
          ((⟨1500, 100, 0.06, 1, 0⟩ : UserRating)).lastUpdated) /
        (RATING_PERIOD_DAYS * 24 * 60 * 60 * 1000)) = 12500 := by
    show (100 : ℝ) * 100 + C_PARAMETER * C_PARAMETER *
      (((1 + 365 * 24 * 60 * 60 * 1000) - 1) /
        (RATING_PERIOD_DAYS * 24 * 60 * 60 * 1000)) = 12500
    rw [C_PARAMETER, RATING_PERIOD_DAYS]
    norm_num
  have hlo : (111.5 : ℝ) < Real.sqrt 12500 :=
    (Real.lt_sqrt (by norm_num)).mpr (by norm_num)
  have hhi : Real.sqrt 12500 < 112 :=
    (Real.sqrt_lt' (by norm_num)).mpr (by norm_num)
  have hmin : min (Real.sqrt 12500) DEFAULT_RD = Real.sqrt 12500 := by
    apply min_eq_left
    rw [DEFAULT_RD]
    linarith
  have hround : round (Real.sqrt 12500) = 112 := by
    rw [round_eq]
    apply Int.floor_eq_iff.mpr
    constructor
    · push_cast
      linarith
    · push_cast
      linarith
  rw [applyTimeDecay_rd _ _ (by norm_num), harg, hmin, hround]
  push_cast
  intro h
  linarith

/-! Projection lemmas for the `updateRating` trace, each a definitional
restatement of one line of the source. -/

lemma updateRatingTrace_decayed (r : UserRating) (p o now : ℝ) (fuel : ℕ) :
    (updateRatingTrace r p o now fuel).decayedRating = applyTimeDecay r now := rfl

lemma updateRatingTrace_expectedScore (r : UserRating) (p o now : ℝ) (fuel : ℕ) :
    (updateRatingTrace r p o now fuel).expectedScore =
      E (toGlickoScale (applyTimeDecay r now).rating) (toGlickoScale p)
        (rdToGlickoScale 50) := rfl

lemma updateRatingTrace_v (r : UserRating) (p o now : ℝ) (fuel : ℕ) :
    (updateRatingTrace r p o now fuel).v =
      1 / (g (rdToGlickoScale 50) * g (rdToGlickoScale 50) *
        (updateRatingTrace r p o now fuel).expectedScore *
        (1 - (updateRatingTrace r p o now fuel).expectedScore)) := rfl

lemma updateRatingTrace_delta (r : UserRating) (p o now : ℝ) (fuel : ℕ) :
    (updateRatingTrace r p o now fuel).delta =
      (updateRatingTrace r p o now fuel).v * g (rdToGlickoScale 50) *
        (o - (updateRatingTrace r p o now fuel).expectedScore) := rfl

lemma updateRatingTrace_a (r : UserRating) (p o now : ℝ) (fuel : ℕ) :
    (updateRatingTrace r p o now fuel).a =
      Real.log ((applyTimeDecay r now).volatility *
        (applyTimeDecay r now).volatility) := rfl

lemma updateRatingTrace_deltaSquared (r : UserRating) (p o now : ℝ) (fuel : ℕ) :
    (updateRatingTrace r p o now fuel).deltaSquared =
      (updateRatingTrace r p o now fuel).delta *
        (updateRatingTrace r p o now fuel).delta := rfl

lemma updateRatingTrace_phi (r : UserRating) (p o now : ℝ) (fuel : ℕ) :
    (updateRatingTrace r p o now fuel).phi =
      rdToGlickoScale (applyTimeDecay r now).rd := rfl

lemma updateRatingTrace_phiSquared (r : UserRating) (p o now : ℝ) (fuel : ℕ) :
    (updateRatingTrace r p o now fuel).phiSquared =
      (updateRatingTrace r p o now fuel).phi *
        (updateRatingTrace r p o now fuel).phi := rfl

lemma updateRatingTrace_startB (r : UserRating) (p o now : ℝ) (fuel : ℕ) :
    (updateRatingTrace r p o now fuel).startB =
      if (updateRatingTrace r p o now fuel).deltaSquared >
          (updateRatingTrace r p o now fuel).phiSquared +
            (updateRatingTrace r p o now fuel).v then
        Real.log ((updateRatingTrace r p o now fuel).deltaSquared -
          (updateRatingTrace r p o now fuel).phiSquared -
          (updateRatingTrace r p o now fuel).v)
      else
        (updateRatingTrace r p o now fuel).a -
          ((findBracketK (volatilityF (updateRatingTrace r p o now fuel).deltaSquared
            (updateRatingTrace r p o now fuel).phiSquared
            (updateRatingTrace r p o now fuel).v
            (updateRatingTrace r p o now fuel).a)
            (updateRatingTrace r p o now fuel).a fuel 1 : ℕ) : ℝ) * TAU := rfl

lemma updateRatingTrace_loopState (r : UserRating) (p o now : ℝ) (fuel : ℕ) :
    (updateRatingTrace r p o now fuel).loopState =
      illinoisLoop (volatilityF (updateRatingTrace r p o now fuel).deltaSquared
          (updateRatingTrace r p o now fuel).phiSquared
          (updateRatingTrace r p o now fuel).v
          (updateRatingTrace r p o now fuel).a) fuel
        ((updateRatingTrace r p o now fuel).a,
          (updateRatingTrace r p o now fuel).startB,
          volatilityF (updateRatingTrace r p o now fuel).deltaSquared
            (updateRatingTrace r p o now fuel).phiSquared
            (updateRatingTrace r p o now fuel).v
            (updateRatingTrace r p o now fuel).a
            (updateRatingTrace r p o now fuel).a,
          volatilityF (updateRatingTrace r p o now fuel).deltaSquared
            (updateRatingTrace r p o now fuel).phiSquared
            (updateRatingTrace r p o now fuel).v
            (updateRatingTrace r p o now fuel).a
            (updateRatingTrace r p o now fuel).startB) := rfl

lemma updateRating_volatility_eq (r : UserRating) (p o now : ℝ) (fuel : ℕ) :
    (updateRating r p o now fuel).volatility =
      Real.exp ((updateRatingTrace r p o now fuel).loopState.1 / 2) := rfl

lemma updateRating_solveCount_eq (r : UserRating) (p o now : ℝ) (fuel : ℕ) :
    (updateRating r p o now fuel).solveCount =
      (applyTimeDecay r now).solveCount + 1 := rfl

/-- The expected score of equal means is `1/2`. -/
lemma E_self (x phiJ : ℝ) : E x x phiJ = 1 / 2 := by
  simp [E, sub_self, mul_zero, Real.exp_zero]
  norm_num

/-- `g` is nonnegative. -/
lemma g_nonneg (phi : ℝ) : 0 ≤ g phi := by
  unfold g
  positivity

/-- C4 (amended): the source's volatility solver has no iteration cap and no
fault path: for every iteration budget — including an exhausted one, in which
case the returned loop state is still unconverged — `updateRating` silently
returns the plain record built from the solver's current state `A`, with
volatility `exp(A/2)` and an incremented solve count, and no error value of
any kind. -/
theorem updateRating_silent_volatility (r : UserRating) (p o now : ℝ)
    (fuel : ℕ) :
    (updateRating r p o now fuel).volatility =
      Real.exp ((updateRatingTrace r p o now fuel).loopState.1 / 2) ∧
    (updateRating r p o now fuel).solveCount =
      (applyTimeDecay r now).solveCount + 1 :=
  ⟨updateRating_volatility_eq r p o now fuel,
    updateRating_solveCount_eq r p o now fuel⟩

/-- C4 counterexample: at the default rating against an equal-rated problem
with a drawn outcome and an exhausted iteration budget, the loop-exit test
`|B - A| ≤ EPSILON` fails at the state the solver stopped in (the distance is
`TAU = 0.5`), yet `updateRating` still returns an ordinary record whose
volatility is the input's unconverged `0.06` — there is no iteration bound
and no distinct `ComputationFault`. -/
theorem updateRating_no_fault_cex :
    ¬ updateRatingConverged ⟨1500, 350, 0.06, 0, 0⟩ 1500 0.5 0 0 ∧
    (updateRating ⟨1500, 350, 0.06, 0, 0⟩ 1500 0.5 0 0).volatility = 0.06 ∧
    (updateRating ⟨1500, 350, 0.06, 0, 0⟩ 1500 0.5 0 0).solveCount = 1 := by
  have hd : applyTimeDecay ⟨1500, 350, 0.06, 0, 0⟩ 0 = ⟨1500, 350, 0.06, 0, 0⟩ := by
    rw [applyTimeDecay, if_pos rfl]
  have hE : (updateRatingTrace ⟨1500, 350, 0.06, 0, 0⟩ 1500 0.5 0 0).expectedScore
      = 1 / 2 := by
    rw [updateRatingTrace_expectedScore, hd]
    exact E_self _ _
  have hdelta : (updateRatingTrace ⟨1500, 350, 0.06, 0, 0⟩ 1500 0.5 0 0).delta = 0 := by
    rw [updateRatingTrace_delta, hE]
    norm_num
  have hds : (updateRatingTrace ⟨1500, 350, 0.06, 0, 0⟩ 1500 0.5 0 0).deltaSquared
      = 0 := by
    rw [updateRatingTrace_deltaSquared, hdelta, mul_zero]
  have hv : 0 ≤ (updateRatingTrace ⟨1500, 350, 0.06, 0, 0⟩ 1500 0.5 0 0).v := by
    rw [updateRatingTrace_v, hE]
    have hg := g_nonneg (rdToGlickoScale 50)
    apply one_div_nonneg.mpr
    nlinarith
  have hps : 0 ≤ (updateRatingTrace ⟨1500, 350, 0.06, 0, 0⟩ 1500 0.5 0 0).phiSquared := by
    rw [updateRatingTrace_phiSquared]
    exact mul_self_nonneg _
  have hbranch : ¬ ((updateRatingTrace ⟨1500, 350, 0.06, 0, 0⟩ 1500 0.5 0 0).deltaSquared >
      (updateRatingTrace ⟨1500, 350, 0.06, 0, 0⟩ 1500 0.5 0 0).phiSquared +
        (updateRatingTrace ⟨1500, 350, 0.06, 0, 0⟩ 1500 0.5 0 0).v) := by
    rw [hds]
    push_neg
    linarith
  have hstartB : (updateRatingTrace ⟨1500, 350, 0.06, 0, 0⟩ 1500 0.5 0 0).startB =
      (updateRatingTrace ⟨1500, 350, 0.06, 0, 0⟩ 1500 0.5 0 0).a - TAU := by
    rw [updateRatingTrace_startB, if_neg hbranch]
    norm_num [findBracketK]
  have hloop : (updateRatingTrace ⟨1500, 350, 0.06, 0, 0⟩ 1500 0.5 0 0).loopState.1 =
      (updateRatingTrace ⟨1500, 350, 0.06, 0, 0⟩ 1500 0.5 0 0).a ∧
      (updateRatingTrace ⟨1500, 350, 0.06, 0, 0⟩ 1500 0.5 0 0).loopState.2.1 =
      (updateRatingTrace ⟨1500, 350, 0.06, 0, 0⟩ 1500 0.5 0 0).startB := by
    rw [updateRatingTrace_loopState]
    exact ⟨rfl, rfl⟩
  refine ⟨?_, ?_, ?_⟩
  · show ¬ |(updateRatingTrace ⟨1500, 350, 0.06, 0, 0⟩ 1500 0.5 0 0).loopState.2.1 -
      (updateRatingTrace ⟨1500, 350, 0.06, 0, 0⟩ 1500 0.5 0 0).loopState.1| ≤ EPSILON
    rw [hloop.1, hloop.2, hstartB]
    rw [EPSILON, TAU]
    intro h
    rw [abs_le] at h
    have := h.1
    norm_num at this
  · rw [updateRating_volatility_eq, hloop.1, updateRatingTrace_a, hd]
    show Real.exp (Real.log ((0.06 : ℝ) * 0.06) / 2) = 0.06
    rw [Real.exp_half, Real.exp_log (by norm_num)]
    exact Real.sqrt_mul_self (by norm_num)
  · rw [updateRating_solveCount_eq, hd]

/-! Lemmas about the calibration selection pipeline. -/

/-- Sorting by popularity preserves membership. -/
lemma mem_sortByPopularityDesc {x : Problem} {l : List Problem} :
    x ∈ sortByPopularityDesc l ↔ x ∈ l := List.mem_insertionSort _

/-- `swapAt` preserves length. -/
lemma swapAt_length (l : List Problem) (i j : ℕ) :
    (swapAt l i j).length = l.length := by
  unfold swapAt
  cases hi : l.get? i <;> cases hj : l.get? j <;>
    simp [List.length_set]

/-- `swapAt` creates no new elements. -/
lemma swapAt_subset {x : Problem} {l : List Problem} {i j : ℕ}
    (h : x ∈ swapAt l i j) : x ∈ l := by
  unfold swapAt at h
  cases hi : l.get? i with
  | none => rw [hi] at h; exact h
  | some a =>
    cases hj : l.get? j with
    | none => rw [hi, hj] at h; exact h
    | some b =>
      rw [hi, hj] at h
      rcases List.mem_or_eq_of_mem_set h with h' | h'
      · rcases List.mem_or_eq_of_mem_set h' with h'' | h''
        · exact h''
        · exact h'' ▸ List.get?_mem hj
      · exact h' ▸ List.get?_mem hi

/-- The Fisher-Yates walk preserves length. -/
lemma fisherYatesAux_length (rand : ℕ → ℕ) :
    ∀ (i : ℕ) (l : List Problem), (fisherYatesAux rand i l).length = l.length := by
  intro i
  induction i with
  | zero => intro l; rfl
  | succ i ih =>
    intro l
    rw [fisherYatesAux, ih, swapAt_length]

/-- The Fisher-Yates walk creates no new elements. -/
lemma fisherYatesAux_subset (rand : ℕ → ℕ) :
    ∀ (i : ℕ) (l : List Problem) (x : Problem),
      x ∈ fisherYatesAux rand i l → x ∈ l := by
  intro i
  induction i with
  | zero => intro l x h; exact h
  | succ i ih =>
    intro l x h
    exact swapAt_subset (ih _ x h)

/-- `shuffleArray` preserves length. -/
lemma shuffleArray_length (rand : ℕ → ℕ) (l : List Problem) :
    (shuffleArray rand l).length = l.length := fisherYatesAux_length rand _ l

/-- `shuffleArray` creates no new elements. -/
lemma shuffleArray_subset {rand : ℕ → ℕ} {l : List Problem} {x : Problem}
    (h : x ∈ shuffleArray rand l) : x ∈ l := fisherYatesAux_subset rand _ l x h

/-- The selection invariant: everything selected is a candidate and no more
than `count` problems are selected. -/
def SelInv (S : List Problem) (count : ℕ) (st : List Problem × List String) :
    Prop :=
  (∀ x ∈ st.1, x ∈ S) ∧ st.1.length ≤ count

/-- Members of the per-target pool are candidates. -/
lemma targetPool_subset {S u : _} {t : ℚ} {x : Problem}
    (h : x ∈ targetPool S u t) : x ∈ S := by
  unfold targetPool at h
  split_ifs at h
  · exact List.mem_of_mem_filter h
  · exact List.mem_of_mem_filter (List.mem_of_mem_filter h)

/-- The invariant holds at the start of the selection. -/
lemma selInv_nil {S : List Problem} {count : ℕ} :
    SelInv S count ([], []) :=
  ⟨fun x hx => absurd hx (List.not_mem_nil x), Nat.zero_le _⟩

/-- One per-target step preserves the selection invariant. -/
lemma pickForTarget_inv {S : List Problem} {count : ℕ}
    {st : List Problem × List String} (t : ℚ) (h : SelInv S count st) :
    SelInv S count (pickForTarget S count st t) := by
  unfold pickForTarget
  split_ifs with h1 h2
  · exact h
  · exact h
  · cases hh : (sortByPopularityDesc (targetPool S st.2 t)).head? with
    | none => exact h
    | some chosen =>
      have hchosen : chosen ∈ S :=
        targetPool_subset (mem_sortByPopularityDesc.mp (List.mem_of_mem_head? hh))
      constructor
      · intro x hx
        rcases List.mem_append.mp hx with hx' | hx'
        · exact h.1 x hx'
        · rw [List.mem_singleton.mp hx']
          exact hchosen
      · have hlt : st.1.length < count := Nat.lt_of_not_le h1
        simp only [List.length_append, List.length_singleton]
        omega

/-- The whole per-target loop preserves the selection invariant. -/
lemma foldl_pickForTarget_inv {S : List Problem} {count : ℕ} :
    ∀ (ts : List ℚ) (st : List Problem × List String), SelInv S count st →
      SelInv S count (ts.foldl (pickForTarget S count) st) := by
  intro ts
  induction ts with
  | nil => intro st h; exact h
  | cons t ts ih =>
    intro st h
    exact ih _ (pickForTarget_inv t h)

/-- The fill loop preserves the selection invariant when it draws from
candidates. -/
lemma fillSelected_inv {S : List Problem} {count : ℕ} :
    ∀ (rest selected : List Problem), (∀ x ∈ selected, x ∈ S) →
      (∀ x ∈ rest, x ∈ S) → selected.length ≤ count →
      (∀ x ∈ fillSelected count selected rest, x ∈ S) ∧
        (fillSelected count selected rest).length ≤ count := by
  intro rest
  induction rest with
  | nil => intro selected hsel _ hlen; exact ⟨hsel, hlen⟩
  | cons p rest ih =>
    intro selected hsel hrest hlen
    rw [fillSelected]
    split_ifs with h1
    · exact ⟨hsel, hlen⟩
    · have hlen' : selected.length < count := Nat.lt_of_not_le h1
      apply ih
      · intro x hx
        rcases List.mem_append.mp hx with hx' | hx'
        · exact hsel x hx'
        · rw [List.mem_singleton.mp hx']
          exact hrest p (List.mem_cons_self p rest)
      · intro x hx
        exact hrest x (List.mem_cons_of_mem p hx)
      · simp only [List.length_append, List.length_singleton]
        omega

/-- Sorted filtered candidates are candidates. -/
lemma sort_filter_subset (S : List Problem) (q : Problem → Bool) :
    ∀ y ∈ sortByPopularityDesc (S.filter q), y ∈ S := fun _ hy =>
  List.mem_of_mem_filter (mem_sortByPopularityDesc.mp hy)

/-- Unpacking the candidate filter. -/
lemma candidate_props {solvedSlugs : List String} {p : Problem}
    (h : isCalibrationCandidate solvedSlugs p = true) :
    p.slug ∉ solvedSlugs ∧ p.isPaid = false ∧
      ∃ r, p.rating = some r ∧ 1100 ≤ r ∧ r ≤ 2300 := by
  unfold isCalibrationCandidate at h
  simp only [Bool.and_eq_true] at h
  refine ⟨?_, ?_, ?_⟩
  · have := h.1.1
    intro hm
    simp at this
    exact this hm
  · have := h.1.2
    simpa using this
  · have := h.2
    cases hr : p.rating with
    | none => rw [hr] at this; simp at this
    | some r =>
      rw [hr] at this
      simp only [Bool.and_eq_true, decide_eq_true_eq] at this
      exact ⟨r, rfl, this.1.2, this.2⟩

/-- C5: every problem returned by `selectCalibrationProblems` is unsolved,
non-paid and carries a rating in `[1100, 2300]`, and at most `count` problems
are returned. -/
theorem selectCalibrationProblems_spec (allProblems : List Problem)
    (count : ℕ) (solvedSlugs : List String) (rand : ℕ → ℕ) :
    (∀ p ∈ selectCalibrationProblems allProblems count solvedSlugs rand,
      p.slug ∉ solvedSlugs ∧ p.isPaid = false ∧
        ∃ r, p.rating = some r ∧ 1100 ≤ r ∧ r ≤ 2300) ∧
    (selectCalibrationProblems allProblems count solvedSlugs rand).length ≤
      count := by
  have main : ∀ x ∈ selectCalibrationProblems allProblems count solvedSlugs rand,
      x ∈ allProblems.filter (isCalibrationCandidate solvedSlugs) := by
    intro x hx
    rw [selectCalibrationProblems] at hx
    simp only at hx
    split_ifs at hx with h0 h1
    · cases hx
    · have hinv : SelInv (allProblems.filter (isCalibrationCandidate solvedSlugs))
          count (CALIBRATION_TARGET_RATINGS.foldl
            (pickForTarget (allProblems.filter (isCalibrationCandidate solvedSlugs))
              count) ([], [])) :=
        foldl_pickForTarget_inv _ _ selInv_nil
      exact (fillSelected_inv _ _ hinv.1 (sort_filter_subset _ _) hinv.2).1 x
        (shuffleArray_subset hx)
    · have hinv : SelInv (allProblems.filter (isCalibrationCandidate solvedSlugs))
          count (CALIBRATION_TARGET_RATINGS.foldl
            (pickForTarget (allProblems.filter (isCalibrationCandidate solvedSlugs))
              count) ([], [])) :=
        foldl_pickForTarget_inv _ _ selInv_nil
      exact hinv.1 x (shuffleArray_subset hx)
  constructor
  · intro p hp
    exact candidate_props (List.of_mem_filter (main p hp))
  · rw [selectCalibrationProblems]
    simp only
    split_ifs with h0 h1
    · simp
    · have hinv : SelInv (allProblems.filter (isCalibrationCandidate solvedSlugs))
          count (CALIBRATION_TARGET_RATINGS.foldl
            (pickForTarget (allProblems.filter (isCalibrationCandidate solvedSlugs))
              count) ([], [])) :=
        foldl_pickForTarget_inv _ _ selInv_nil
      rw [shuffleArray_length]
      exact (fillSelected_inv _ _ hinv.1 (sort_filter_subset _ _) hinv.2).2
    · have hinv : SelInv (allProblems.filter (isCalibrationCandidate solvedSlugs))
          count (CALIBRATION_TARGET_RATINGS.foldl
            (pickForTarget (allProblems.filter (isCalibrationCandidate solvedSlugs))
              count) ([], [])) :=
        foldl_pickForTarget_inv _ _ selInv_nil
      rw [shuffleArray_length]
      exact hinv.2

unseal Rat.sub in
/-- C10 (code bug): with a single candidate rated exactly between two
adjacent targets (1300, within ±100 of both 1200 and 1400), the per-target
loop selects the same problem twice — the returned list repeats the slug. -/
theorem selectCalibrationProblems_duplicate :
    selectCalibrationProblems
      [⟨"p1300", "T", "Medium", some 1300, ["Array"], false, 10⟩] 8 []
      (fun _ => 0) =
      [⟨"p1300", "T", "Medium", some 1300, ["Array"], false, 10⟩,
       ⟨"p1300", "T", "Medium", some 1300, ["Array"], false, 10⟩] := by
  decide

/-- C8: `updateRatingsFromSolve` skips a solve without a positive rating,
leaving the stored ratings unchanged; otherwise every rating update (the
global one and every tagged category's) uses the single outcome score, which
is `calculatePartialCredit(timeUsed, determineTimeLimit(rating), accepted)`
when `timeUsed` is positive and the binary fallback `1.0`/`0.1` when
`timeUsed` is absent or non-positive. -/
theorem updateRatingsFromSolve_spec (ratings : UserRatings) (solve : Solve)
    (now : ℝ) (fuel : ℕ) :
    (solve.rating = none →
      updateRatingsFromSolve ratings solve now fuel = ratings) ∧
    (∀ r : ℚ, solve.rating = some r → r ≤ 0 →
      updateRatingsFromSolve ratings solve now fuel = ratings) ∧
    (∀ r : ℚ, solve.rating = some r → 0 < r →
      (updateRatingsFromSolve ratings solve now fuel).global =
        updateRating ratings.global (r : ℝ) (outcomeScoreFor solve r) now fuel ∧
      (updateRatingsFromSolve ratings solve now fuel).categories =
        updateCategoriesFromSolve
          (updateRating ratings.global (r : ℝ) (outcomeScoreFor solve r) now fuel)
          r (outcomeScoreFor solve r) now fuel solve.tags ratings.categories ∧
      (∀ t : ℚ, solve.timeUsed = some t → 0 < t →
        outcomeScoreFor solve r =
          ((calculatePartialCredit t (determineTimeLimit r)
            (solve.status = "Accepted") : ℚ) : ℝ)) ∧
      (solve.timeUsed = none →
        outcomeScoreFor solve r =
          if solve.status = "Accepted" then (1.0 : ℝ) else 0.1) ∧
      (∀ t : ℚ, solve.timeUsed = some t → t ≤ 0 →
        outcomeScoreFor solve r =
          if solve.status = "Accepted" then (1.0 : ℝ) else 0.1)) := by
  refine ⟨?_, ?_, ?_⟩
  · intro h
    simp [updateRatingsFromSolve, h]
  · intro r hr hr0
    simp [updateRatingsFromSolve, hr, hr0]
  · intro r hr hr0
    have hntle : ¬ r ≤ 0 := not_le.mpr hr0
    refine ⟨?_, ?_, ?_, ?_, ?_⟩
    · simp [updateRatingsFromSolve, hr, hntle]
    · simp [updateRatingsFromSolve, hr, hntle]
    · intro t ht ht0
      simp [outcomeScoreFor, ht, ht0]
    · intro ht
      simp [outcomeScoreFor, ht]
    · intro t ht ht0
      have : ¬ 0 < t := not_lt.mpr ht0
      simp [outcomeScoreFor, ht, this]

/-! Lemmas about the historical estimator. -/

/-- A solve as it enters a category group: accepted, with a positively rated
problem in the catalog. -/
def GoodSolve (problems : String → Option Problem) (s : Solve) : Prop :=
  s.status = "Accepted" ∧
    ∃ p r, problems s.slug = some p ∧ p.rating = some r ∧ 0 < r

/-- A fold preserves any invariant its step preserves. -/
lemma foldl_preserve {α β : Type} {P : β → Prop} (step : β → α → β)
    (hstep : ∀ b a, P b → P (step b a)) :
    ∀ (l : List α) (b : β), P b → P (l.foldl step b) := by
  intro l
  induction l with
  | nil => intro b h; exact h
  | cons a l ih => intro b h; exact ih _ (hstep b a h)

/-- `upsertGroup` keeps every grouped solve good when the inserted solve is. -/
lemma upsertGroup_good {problems : String → Option Problem}
    {s : Solve} (tag : String) :
    ∀ (m : List (String × List Solve)),
      (∀ cs ∈ m, ∀ x ∈ cs.2, GoodSolve problems x) → GoodSolve problems s →
      ∀ cs ∈ upsertGroup m tag s, ∀ x ∈ cs.2, GoodSolve problems x := by
  intro m
  induction m with
  | nil =>
    intro _ hs cs hcs x hx
    rw [upsertGroup, List.mem_singleton] at hcs
    subst hcs
    rw [List.mem_singleton] at hx
    exact hx ▸ hs
  | cons hd rest ih =>
    intro hm hs cs hcs x hx
    obtain ⟨t, ss⟩ := hd
    rw [upsertGroup] at hcs
    split_ifs at hcs with ht
    · rcases List.mem_cons.mp hcs with hcs' | hcs'
      · subst hcs'
        rcases List.mem_append.mp hx with hx' | hx'
        · exact hm (t, ss) (List.mem_cons_self _ _) x hx'
        · exact (List.mem_singleton.mp hx') ▸ hs
      · exact hm cs (List.mem_cons_of_mem _ hcs') x hx
    · rcases List.mem_cons.mp hcs with hcs' | hcs'
      · subst hcs'
        exact hm (t, ss) (List.mem_cons_self _ _) x hx
      · exact ih (fun cs' hcs' => hm cs' (List.mem_cons_of_mem _ hcs')) hs cs
          hcs' x hx

/-- Everything `groupSolvesByCategory` groups is a good solve. -/
lemma groupSolvesByCategory_good (solves : List Solve)
    (problems : String → Option Problem) :
    ∀ cs ∈ groupSolvesByCategory solves problems, ∀ x ∈ cs.2,
      GoodSolve problems x := by
  unfold groupSolvesByCategory
  refine foldl_preserve
    (P := fun (m : List (String × List Solve)) =>
      ∀ cs ∈ m, ∀ x ∈ cs.2, GoodSolve problems x) _ ?_ solves [] ?_
  · intro m solve hm
    split_ifs with hst
    · exact hm
    · split
      next => exact hm
      next problem hp =>
        split
        next => exact hm
        next r hr =>
          split_ifs with hr0 htags
          · exact hm
          · exact hm
          · have hgood : GoodSolve problems solve :=
              ⟨of_not_not hst, problem, r, hp, hr, lt_of_not_le hr0⟩
            refine foldl_preserve
              (P := fun (m : List (String × List Solve)) =>
                ∀ cs ∈ m, ∀ x ∈ cs.2, GoodSolve problems x) _ ?_
              problem.tags m hm
            intro m' tag hm'
            split_ifs with htag
            · exact hm'
            · exact upsertGroup_good tag m' hm' hgood
  · intro cs hcs
    cases hcs

/-- Time decay never changes the solve count. -/
lemma applyTimeDecay_solveCount (u : UserRating) (t : ℝ) :
    (applyTimeDecay u t).solveCount = u.solveCount := by
  unfold applyTimeDecay
  split_ifs <;> rfl

/-- One step of the tie-replay fold on a good solve is one rating update. -/
lemma phs_step_eq {problems : String → Option Problem} {now : ℝ} {fuel : ℕ}
    {s : Solve} {p : Problem} {rr : ℚ} (r : UserRating)
    (hacc : s.status = "Accepted") (hp : problems s.slug = some p)
    (hrr : p.rating = some rr) (hpos : 0 < rr) :
    (if s.status ≠ "Accepted" then r
     else
       match problems s.slug with
       | none => r
       | some problem =>
         match problem.rating with
         | none => r
         | some r' =>
           if r' ≤ 0 then r else updateRating r (r' : ℝ) 0.5 now fuel) =
      updateRating r (rr : ℝ) 0.5 now fuel := by
  rw [if_neg (not_not_intro hacc), hp]
  change (match p.rating with
    | none => r
    | some r' => if r' ≤ 0 then r else updateRating r (r' : ℝ) 0.5 now fuel) = _
  rw [hrr]
  change (if rr ≤ 0 then r else updateRating r (rr : ℝ) 0.5 now fuel) = _
  rw [if_neg (not_le.mpr hpos)]

/-- The tie-replay fold adds one solve count per (good) solve. -/
lemma phsFold_solveCount (problems : String → Option Problem) (now : ℝ)
    (fuel : ℕ) :
    ∀ (l : List Solve) (r : UserRating), (∀ s ∈ l, GoodSolve problems s) →
      (l.foldl
        (fun rating solve =>
          if solve.status ≠ "Accepted" then rating
          else
            match problems solve.slug with
            | none => rating
            | some problem =>
              match problem.rating with
              | none => rating
              | some r' =>
                if r' ≤ 0 then rating
                else updateRating rating (r' : ℝ) 0.5 now fuel)
        r).solveCount = r.solveCount + l.length := by
  intro l
  induction l with
  | nil => intro r _; simp
  | cons s l ih =>
    intro r hgood
    obtain ⟨hacc, p, rr, hp, hrr, hpos⟩ := hgood s (List.mem_cons_self s l)
    rw [List.foldl_cons]
    rw [phs_step_eq r hacc hp hrr hpos,
      ih _ (fun x hx => hgood x (List.mem_cons_of_mem s hx)),
      updateRating_solveCount_eq, applyTimeDecay_solveCount]
    simp [List.length_cons]
    omega

/-- Replaying a category group's solves yields a solve count equal to the
group's size. -/
lemma processHistoricalSolves_solveCount (initialRating : ℝ) (ss : List Solve)
    (problems : String → Option Problem) (now : ℝ) (fuel : ℕ)
    (h : ∀ s ∈ ss, GoodSolve problems s) :
    (processHistoricalSolves initialRating ss problems now fuel).solveCount =
      ss.length := by
  unfold processHistoricalSolves
  rw [phsFold_solveCount problems now fuel _ _
    (fun s hs => h s (List.mem_mergeSort.mp hs))]
  simp [List.length_mergeSort]
  rfl

/-- Where a category entry of `initializeRatingsFromHistory` comes from:
either it was in the accumulator already, or some group of
`groupSolvesByCategory` produced it. -/
lemma mem_categoryRatings_fold (problems : String → Option Problem) (est : ℝ)
    (random : String → ℝ) (now : ℝ) (fuel : ℕ) :
    ∀ (groups : List (String × List Solve))
      (acc : List (String × UserRating)) (c : String) (u : UserRating),
      (c, u) ∈ groups.foldl
        (fun acc cg =>
          match categoryRatingFromHistory problems est random now fuel cg.1
            cg.2 with
          | some v => acc ++ [(cg.1, v)]
          | none => acc) acc →
      (c, u) ∈ acc ∨ ∃ ss, (c, ss) ∈ groups ∧
        categoryRatingFromHistory problems est random now fuel c ss = some u := by
  intro groups
  induction groups with
  | nil => intro acc c u h; exact Or.inl h
  | cons cg rest ih =>
    intro acc c u h
    rw [List.foldl_cons] at h
    rcases ih _ c u h with h' | ⟨ss, hss, heq⟩
    · split at h'
      next v hbr =>
        rcases List.mem_append.mp h' with h'' | h''
        · exact Or.inl h''
        · have hpair := List.mem_singleton.mp h''
          have hc : c = cg.1 := congrArg Prod.fst hpair
          have hu : u = v := congrArg Prod.snd hpair
          subst hc
          exact Or.inr ⟨cg.2, List.mem_cons_self _ _, by rw [hbr, hu]⟩
      next hbr => exact Or.inl h'
    · exact Or.inr ⟨ss, List.mem_cons_of_mem _ hss, heq⟩

/-- With only 1 or 2 rated solves in the group, the branch is the jittered
global-estimate replay. -/
lemma categoryRatingFromHistory_small (problems : String → Option Problem)
    (est : ℝ) (random : String → ℝ) (now : ℝ) (fuel : ℕ) (c : String)
    (ss : List Solve) (u : UserRating)
    (hlen : (categoryRatingValuesOf problems ss).length = 1 ∨
      (categoryRatingValuesOf problems ss).length = 2)
    (h : categoryRatingFromHistory problems est random now fuel c ss = some u) :
    u = processHistoricalSolves
      (max 800 (min 3000 (est + (random c - 0.5) * 100))) ss problems now
      fuel := by
  unfold categoryRatingFromHistory at h
  rw [if_neg (by omega), if_pos (by omega)] at h
  exact (Option.some.injEq _ _ ▸ h).symm

/-- C3 (amended): in `initializeRatingsFromHistory`, a category whose group
carries 1 or 2 positive problem ratings is NOT exempt from replay: its
stored record is a full tie replay of the group's solves, started from the
global initial (pre-replay) estimate offset by the jitter and clamped to
`[800, 3000]`; in particular its solve count equals the group's size (its
deviation is the replay's result, not `max(200, globalRd + 50)`). -/
theorem historical_small_category_replay (solves : List Solve)
    (problems : String → Option Problem) (random : String → ℝ) (now : ℝ)
    (fuel : ℕ) (c : String) (u : UserRating)
    (hcu : (c, u) ∈
      (initializeRatingsFromHistory solves problems random now fuel).categories) :
    ∃ ss, (c, ss) ∈ groupSolvesByCategory solves problems ∧
      ((categoryRatingValuesOf problems ss).length = 1 ∨
        (categoryRatingValuesOf problems ss).length = 2 →
        u = processHistoricalSolves
          (max 800 (min 3000 (initialEstimateOf solves problems +
            (random c - 0.5) * 100))) ss problems now fuel ∧
        u.solveCount = ss.length) := by
  have hcu' : (c, u) ∈ (groupSolvesByCategory solves problems).foldl
      (fun acc cg =>
        match categoryRatingFromHistory problems
          (initialEstimateOf solves problems) random now fuel cg.1 cg.2 with
        | some v => acc ++ [(cg.1, v)]
        | none => acc) [] := hcu
  rcases mem_categoryRatings_fold problems (initialEstimateOf solves problems)
    random now fuel (groupSolvesByCategory solves problems) [] c u hcu' with
    h | ⟨ss, hss, heq⟩
  · cases h
  · refine ⟨ss, hss, fun hlen => ?_⟩
    have hu := categoryRatingFromHistory_small problems _ random now fuel c ss
      u hlen heq
    refine ⟨hu, ?_⟩
    rw [hu]
    exact processHistoricalSolves_solveCount _ ss problems now fuel
      (groupSolvesByCategory_good solves problems (c, ss) hss)

/-- The concrete problem of the C3 counterexample. -/
def histCexProblem : Problem :=
  ⟨"two-sum", "Two Sum", "Easy", some 1500, ["Array"], false, 1⟩

/-- The concrete solve of the C3 counterexample. -/
def histCexSolve : Solve := ⟨"two-sum", "Accepted", 0, some 1500, ["Array"], none⟩

/-- The concrete catalog of the C3 counterexample. -/
def histCexProblems : String → Option Problem := fun slug =>
  if slug = "two-sum" then some histCexProblem else none

/-- A frozen random source whose draw is `0.5`, so the jitter is `0`. -/
noncomputable def histCexRandom : String → ℝ := fun _ => 0.5

/-- On the counterexample's history the conservative global estimate is the
single problem's rating, `1500`. -/
lemma histCex_initialEstimate :
    initialEstimateOf [histCexSolve] histCexProblems = 1500 := by
  have h1 : getAcceptedSolveRatings [histCexSolve] histCexProblems =
      [(1500 : ℚ)] := rfl
  unfold initialEstimateOf
  rw [h1]
  norm_num [mean, standardDeviation]

/-- With zero jitter, the clamped category estimate equals the global
estimate. -/
lemma histCex_small_est :
    max 800 (min 3000 (initialEstimateOf [histCexSolve] histCexProblems +
      (histCexRandom "Array" - 0.5) * 100)) =
      initialEstimateOf [histCexSolve] histCexProblems := by
  rw [histCex_initialEstimate]
  norm_num [histCexRandom]

/-- On the counterexample input the "Array" category entry is computed by the
very same replay as the global rating. -/
lemma histCex_categories_global :
    (initializeRatingsFromHistory [histCexSolve] histCexProblems histCexRandom
      0 100).categories =
      [("Array", (initializeRatingsFromHistory [histCexSolve] histCexProblems
        histCexRandom 0 100).global)] := by
  have hcats : (initializeRatingsFromHistory [histCexSolve] histCexProblems
      histCexRandom 0 100).categories =
      [("Array", processHistoricalSolves
        (max 800 (min 3000 (initialEstimateOf [histCexSolve] histCexProblems +
          (histCexRandom "Array" - 0.5) * 100)))
        [histCexSolve] histCexProblems 0 100)] := rfl
  have hglobal : (initializeRatingsFromHistory [histCexSolve] histCexProblems
      histCexRandom 0 100).global =
      processHistoricalSolves (initialEstimateOf [histCexSolve] histCexProblems)
        [histCexSolve] histCexProblems 0 100 := rfl
  rw [hcats, hglobal, histCex_small_est]

/-- C3 counterexample: on a history with exactly one accepted, rated, tagged
solve and zero jitter, the stored "Array" rating record is identical to the
global record (the category's solves were replayed), so its deviation is NOT
`max(200, globalRd + 50)` — no real number `x` satisfies
`x = max 200 (x + 50)`. -/
theorem historical_small_category_cex :
    (initializeRatingsFromHistory [histCexSolve] histCexProblems histCexRandom
      0 100).categories =
      [("Array", (initializeRatingsFromHistory [histCexSolve] histCexProblems
        histCexRandom 0 100).global)] ∧
    (initializeRatingsFromHistory [histCexSolve] histCexProblems histCexRandom
      0 100).global.rd ≠
      max 200 ((initializeRatingsFromHistory [histCexSolve] histCexProblems
        histCexRandom 0 100).global.rd + 50) := by
  refine ⟨histCex_categories_global, fun h => ?_⟩
  rcases le_total ((initializeRatingsFromHistory [histCexSolve] histCexProblems
      histCexRandom 0 100).global.rd + 50) 200 with hc | hc
  · rw [max_eq_left hc] at h
    linarith
  · rw [max_eq_right hc] at h
    linarith

/-- Witness for the amended C3 at the counterexample input, with
`u = global` (the stored "Array" record). -/
theorem historical_small_category_replay_witness :
    ∃ ss, ("Array", ss) ∈ groupSolvesByCategory [histCexSolve] histCexProblems ∧
      ((categoryRatingValuesOf histCexProblems ss).length = 1 ∨
        (categoryRatingValuesOf histCexProblems ss).length = 2 →
        (initializeRatingsFromHistory [histCexSolve] histCexProblems
          histCexRandom 0 100).global =
          processHistoricalSolves
            (max 800 (min 3000 (initialEstimateOf [histCexSolve] histCexProblems +
              (histCexRandom "Array" - 0.5) * 100))) ss histCexProblems 0 100 ∧
        (initializeRatingsFromHistory [histCexSolve] histCexProblems
          histCexRandom 0 100).global.solveCount = ss.length) :=
  historical_small_category_replay [histCexSolve] histCexProblems histCexRandom
    0 100 "Array"
    (initializeRatingsFromHistory [histCexSolve] histCexProblems histCexRandom
      0 100).global
    (by rw [histCex_categories_global]; exact List.mem_singleton.mpr rfl)

end LeetTracker
